import Mathlib

/-!
Shallow embedding of the MediCalcLite analytics core (`data_service.py` and the
`app.py` route handlers) over exact rational arithmetic, together with proofs of
the behavioural properties stated in the specification.

Floating-point values are modelled by `ℚ`; an IEEE NaN produced by pandas
(e.g. the sample standard deviation of fewer than two values, or the min of an
empty series) is modelled by `none` in an `Option ℚ`.  The square root used by
`StandardScaler` / `Series.std` and the fitted predictors of scikit-learn
(`KMeans.fit_predict`, `IsolationForest.fit_predict`) are external library
collaborators; they enter the embedding as explicit function parameters so that
every theorem quantifies over them, constrained only by the properties the
library guarantees (see the individual theorems).
-/

namespace MediCalc

/-- One medication-price record of the Dataset, mirroring the columns used by
`data_service.py` (`id` is the dataframe row index `row.name`). -/
structure Record where
  id : Nat
  nombre_comercial : String
  principio_activo : String
  fabricante : String
  concentracion : String
  canal : String
  unidad_de_dispensacion : String
  precio_por_tableta : ℚ
deriving DecidableEq

/-- Lexicographic comparison of character lists by code point, the order used
by pandas when sorting a string column. -/
def charListLe : List Char → List Char → Bool
  | [], _ => true
  | _ :: _, [] => false
  | a :: as, b :: bs => if a = b then charListLe as bs else decide (a < b)

/-- String comparison by code points (pandas/Python string ordering). -/
def strLeB (a b : String) : Bool := charListLe a.data b.data

/-- Python `str.lower` restricted to the characters appearing in the code's
inputs (`sort_order.lower()` in `filter_data`). -/
def pyLower (s : String) : String := String.mk (s.data.map Char.toLower)

/-- Python / pandas `df.head(n)` and list slice `l[:n]`: the first `n` elements
for `n ≥ 0`, and all but the last `|n|` elements for negative `n`. -/
def pyHead {α : Type} (n : Int) (l : List α) : List α :=
  if 0 ≤ n then l.take n.toNat else l.take (l.length - (-n).toNat)

/-- Value of a dataframe cell: a string for the six text columns, a rational
for the price column. -/
abbrev ColKey := Sum String ℚ

/-- The seven dataframe columns of the Dataset. -/
inductive Col
  | nombre | principio | fabricante | concentracion | canal | unidad | precio
deriving DecidableEq

/-- Membership test `name in df.columns`, returning the recognized column. -/
def parseCol (s : String) : Option Col :=
  if s = "nombre_comercial" then some Col.nombre
  else if s = "principio_activo" then some Col.principio
  else if s = "fabricante" then some Col.fabricante
  else if s = "concentracion" then some Col.concentracion
  else if s = "canal" then some Col.canal
  else if s = "unidad_de_dispensacion" then some Col.unidad
  else if s = "precio_por_tableta" then some Col.precio
  else none

/-- Cell lookup for a record. -/
def colKey : Col → Record → ColKey
  | Col.nombre, r => Sum.inl r.nombre_comercial
  | Col.principio, r => Sum.inl r.principio_activo
  | Col.fabricante, r => Sum.inl r.fabricante
  | Col.concentracion, r => Sum.inl r.concentracion
  | Col.canal, r => Sum.inl r.canal
  | Col.unidad, r => Sum.inl r.unidad_de_dispensacion
  | Col.precio, r => Sum.inr r.precio_por_tableta

/-- Ordering on cell values used by `sort_values`. -/
def keyLe : ColKey → ColKey → Prop
  | Sum.inl a, Sum.inl b => strLeB a b = true
  | Sum.inr a, Sum.inr b => a ≤ b
  | Sum.inl _, Sum.inr _ => True
  | Sum.inr _, Sum.inl _ => False

instance : (a b : ColKey) → Decidable (keyLe a b)
  | Sum.inl a, Sum.inl b => inferInstanceAs (Decidable (strLeB a b = true))
  | Sum.inr a, Sum.inr b => inferInstanceAs (Decidable (a ≤ b))
  | Sum.inl _, Sum.inr _ => isTrue trivial
  | Sum.inr _, Sum.inl _ => isFalse (fun h => h)

/-- The keyword parameters of `DataService.filter_data`, in source order.
`Option` models Python `None`; an `Option String` holding `some ""` models a
supplied empty string (which is falsy in Python). -/
structure FilterArgs where
  active_ingredient : Option String
  manufacturer : Option String
  concentration : Option String
  channel : Option String
  dispensing_unit : Option String
  min_price : Option ℚ
  max_price : Option ℚ
  sort_by : String
  sort_order : String
  limit : Option Int
deriving DecidableEq

/-- One `if value: df = df[df[col] == value]` step of `filter_data`: skipped
when the value is `None` or the empty string (Python truthiness). -/
def eqFilt (v : Option String) (proj : Record → String) (l : List Record) : List Record :=
  match v with
  | none => l
  | some s => if s = "" then l else l.filter (fun r => proj r == s)

/-- The `min_price is not None` step of `filter_data`. -/
def minFilt (v : Option ℚ) (l : List Record) : List Record :=
  match v with
  | none => l
  | some m => l.filter (fun r => decide (m ≤ r.precio_por_tableta))

/-- The `max_price is not None` step of `filter_data`. -/
def maxFilt (v : Option ℚ) (l : List Record) : List Record :=
  match v with
  | none => l
  | some m => l.filter (fun r => decide (r.precio_por_tableta ≤ m))

/-- The `sort_values` step of `filter_data`: sorts by the named column when it
is recognized (`ascending` iff `sort_order.lower() == 'asc'`), otherwise leaves
the order unchanged. -/
def sortStep (sort_by sort_order : String) (l : List Record) : List Record :=
  match parseCol sort_by with
  | none => l
  | some c =>
    if pyLower sort_order = "asc" then
      List.insertionSort (fun r1 r2 => keyLe (colKey c r1) (colKey c r2)) l
    else
      List.insertionSort (fun r1 r2 => keyLe (colKey c r2) (colKey c r1)) l

/-- The `if limit: df = df.head(limit)` step of `filter_data`: skipped when
`limit` is `None` or `0` (Python truthiness of an int). -/
def limitStep (v : Option Int) (l : List Record) : List Record :=
  match v with
  | none => l
  | some n => if n = 0 then l else pyHead n l

/-- `DataService.filter_data`: equality filters, price-range filters, sorting
and limiting, applied in source order to a copy of the Dataset. -/
def filter_data (df : List Record) (a : FilterArgs) : List Record :=
  limitStep a.limit
    (sortStep a.sort_by a.sort_order
      (maxFilt a.max_price
        (minFilt a.min_price
          (eqFilt a.dispensing_unit (fun r => r.unidad_de_dispensacion)
            (eqFilt a.channel (fun r => r.canal)
              (eqFilt a.concentration (fun r => r.concentracion)
                (eqFilt a.manufacturer (fun r => r.fabricante)
                  (eqFilt a.active_ingredient (fun r => r.principio_activo) df))))))))

/-- The argument bundle produced by a call `self.filter_data(active_ingredient=a,
manufacturer=m)` with every other parameter left at its default. -/
def defaultArgs (ai m : Option String) : FilterArgs :=
  ⟨ai, m, none, none, none, none, none, "precio_por_tableta", "asc", some 50⟩

/-- Minimum of a price series; `none` models the NaN returned on an empty
series. -/
def listMin : List ℚ → Option ℚ
  | [] => none
  | x :: xs => some (xs.foldl min x)

/-- Maximum of a price series; `none` models the NaN on an empty series. -/
def listMax : List ℚ → Option ℚ
  | [] => none
  | x :: xs => some (xs.foldl max x)

/-- Mean of a price series; `none` models the NaN on an empty series. -/
def listMean (l : List ℚ) : Option ℚ :=
  if l.length = 0 then none else some (l.sum / (l.length : ℚ))

/-- Sample variance with denominator `n - 1` (the quantity under the square
root in `Series.std`); `none` models the NaN produced when `n < 2`. -/
def sampleVar (l : List ℚ) : Option ℚ :=
  if l.length < 2 then none
  else
    some (((l.map (fun x => (x - l.sum / (l.length : ℚ)) * (x - l.sum / (l.length : ℚ)))).sum)
      / ((l.length : ℚ) - 1))

/-- Sample standard deviation `Series.std` (ddof = 1), with the library square
root passed in as `msqrt`. -/
def sampleStd (msqrt : ℚ → ℚ) (l : List ℚ) : Option ℚ :=
  (sampleVar l).map msqrt

/-- Floor of a nonnegative rational as a natural number (kernel-computable;
agrees with `⌊q⌋.toNat` for `0 ≤ q`). -/
def ratFloorNat (q : ℚ) : Nat := q.num.toNat / q.den

/-- Indexing of a sorted series clamped to its last element, the access pattern
of linear-interpolation quantiles. -/
def clampIdx (s : List ℚ) (j : Nat) : ℚ := s.getD (min j (s.length - 1)) 0

/-- Linear-interpolation quantile (`Series.quantile(q)` / `Series.median()`)
over an already sorted series `s`: with `h = q·(n−1)`, `i = ⌊h⌋` and
`g = h − i`, the value `s[i] + g·(s[i+1] − s[i])`. -/
def quantile (s : List ℚ) (q : ℚ) : ℚ :=
  let h := q * ((s.length : ℚ) - 1)
  let i := ratFloorNat h
  clampIdx s i + (h - (i : ℚ)) * (clampIdx s (i + 1) - clampIdx s i)

/-- `Series.median()`: the 0.5 linear-interpolation quantile of the sorted
series; `none` models the NaN on an empty series. -/
def listMedian (l : List ℚ) : Option ℚ :=
  if l.length = 0 then none
  else some (quantile (List.insertionSort (fun a b : ℚ => a ≤ b) l) (1 / 2))

/-- One row of a `groupby(...).agg(count/min/max/mean)` breakdown in
`get_summary_stats`. -/
structure BreakStat where
  name : String
  count : Nat
  min_price : Option ℚ
  max_price : Option ℚ
  avg_price : Option ℚ
deriving DecidableEq

/-- The `price_stats` block of `get_summary_stats`. -/
structure PriceStats where
  min : Option ℚ
  max : Option ℚ
  mean : Option ℚ
  median : Option ℚ
  std : Option ℚ
deriving DecidableEq

/-- The result dictionary of `get_summary_stats`; a breakdown key that the code
does not add is `none`. -/
structure SummaryStats where
  count : Nat
  price_stats : PriceStats
  manufacturers : Option (List BreakStat)
  active_ingredients : Option (List BreakStat)
deriving DecidableEq

/-- A `groupby(proj).agg({count, min, max, mean})` breakdown over a view, with
group keys in ascending order as pandas produces them. -/
def breakdown (l : List Record) (proj : Record → String) : List BreakStat :=
  ((l.map proj).dedup.insertionSort (fun a b => strLeB a b = true)).map (fun k =>
    let g := (l.filter (fun r => proj r == k)).map (fun r => r.precio_por_tableta)
    ⟨k, g.length, listMin g, listMax g, listMean g⟩)

/-- `DataService.get_summary_stats`: overall price statistics over the
default-filtered view, a manufacturer breakdown iff an active-ingredient filter
was supplied (truthy), and an active-ingredient breakdown iff a manufacturer
filter was supplied. -/
def get_summary_stats (msqrt : ℚ → ℚ) (df : List Record) (ai m : Option String) :
    SummaryStats :=
  let fd := filter_data df (defaultArgs ai m)
  let prices := fd.map (fun r => r.precio_por_tableta)
  ⟨fd.length,
   ⟨listMin prices, listMax prices, listMean prices, listMedian prices,
    sampleStd msqrt prices⟩,
   (match ai with
    | none => none
    | some s => if s = "" then none else some (breakdown fd (fun r => r.fabricante))),
   (match m with
    | none => none
    | some s => if s = "" then none else some (breakdown fd (fun r => r.principio_activo)))⟩

/-- Outer edges `numpy._get_outer_edges`: `[min, max]` of the data, expanded to
`[min − 0.5, max + 0.5]` when the range is degenerate, `(0, 1)` when the data
is empty. -/
def histRange (data : List ℚ) : ℚ × ℚ :=
  match listMin data, listMax data with
  | some mn, some mx => if mn = mx then (mn - 1 / 2, mx + 1 / 2) else (mn, mx)
  | _, _ => (0, 1)

/-- Bin assignment of `numpy.histogram` over real arithmetic: equal-width bins
`[edge i, edge (i+1))` on `[lo, hi]`, the last bin closed at `hi`. -/
def binIdx (lo hi : ℚ) (bins : Nat) (x : ℚ) : Nat :=
  min (ratFloorNat ((x - lo) * (bins : ℚ) / (hi - lo))) (bins - 1)

/-- `numpy.histogram(data, bins)` over real arithmetic: validates that an
integer `bins` is positive before any computation, then returns the per-bin
counts and the `bins + 1` equal-width edges. -/
def np_histogram (data : List ℚ) (bins : Int) :
    Except String (List Nat × List ℚ) :=
  if bins < 1 then Except.error "`bins` must be positive, when an integer"
  else
    let n := bins.toNat
    let lo := (histRange data).1
    let hi := (histRange data).2
    Except.ok
      ((List.range n).map (fun i => (data.filter (fun x => binIdx lo hi n x == i)).length),
       (List.range (n + 1)).map (fun i : ℕ => lo + (i : ℚ) * (hi - lo) / (n : ℚ)))

/-- One formatted bin of `get_histogram_data` (the presentation-only `bin`
label string is omitted). -/
structure HistBin where
  binStart : ℚ
  binEnd : ℚ
  count : Nat
  normalizedCount : ℚ
deriving DecidableEq

/-- `DataService.get_histogram_data`: histogram of the default-filtered view's
prices, each bin annotated with its edges and the count normalized by the
view's size (`0` for an empty view). -/
def get_histogram_data (df : List Record) (ai m : Option String) (bins : Int) :
    Except String (List HistBin) :=
  let fd := filter_data df (defaultArgs ai m)
  match np_histogram (fd.map (fun r => r.precio_por_tableta)) bins with
  | Except.error e => Except.error e
  | Except.ok he =>
    Except.ok ((List.range he.1.length).map (fun i =>
      ⟨he.2.getD i 0, he.2.getD (i + 1) 0, he.1.getD i 0,
       if fd.length > 0 then (he.1.getD i 0 : ℚ) / (fd.length : ℚ) else 0⟩))

/-- One group summary of `get_boxplot_data`. -/
structure BoxStat where
  name : ColKey
  min : ℚ
  q1 : ℚ
  median : ℚ
  q3 : ℚ
  max : ℚ
  count : Nat
deriving DecidableEq

/-- Non-increasing-median ordering used to sort boxplot groups
(`sort(key=median, reverse=True)`). -/
def medGe (a b : BoxStat) : Prop := b.median ≤ a.median

instance : (a b : BoxStat) → Decidable (medGe a b) := fun a b =>
  inferInstanceAs (Decidable (b.median ≤ a.median))

instance : IsTotal BoxStat medGe := ⟨fun a b => le_total b.median a.median⟩

instance : IsTrans BoxStat medGe := ⟨fun _ _ _ h1 h2 => le_trans h2 h1⟩

/-- One iteration of the group loop of `get_boxplot_data`: the group of the
view with cell value `k`, skipped (`none`) when it has fewer than 5 members,
otherwise summarized by min/q1/median/q3/max/count over its sorted prices. -/
def boxGroup (fd : List Record) (c : Col) (k : ColKey) : Option BoxStat :=
  let g := fd.filter (fun r => colKey c r == k)
  if g.length < 5 then none
  else
    let prices := (g.map (fun r => r.precio_por_tableta)).insertionSort
      (fun a b : ℚ => a ≤ b)
    some (⟨k, prices.headD 0, quantile prices (1 / 4), quantile prices (1 / 2),
      quantile prices (3 / 4), prices.getLastD 0, g.length⟩ : BoxStat)

/-- `DataService.get_boxplot_data`: errors on an unrecognized grouping column;
otherwise groups the default-filtered view by the column value (group keys in
ascending order as `groupby` yields them), drops groups with fewer than 5
members, sorts the group summaries by descending median and truncates to
`limit`. -/
def get_boxplot_data (df : List Record) (group_by : String) (ai : Option String)
    (limit : Int) : Except String (List BoxStat) :=
  let fd := filter_data df (defaultArgs ai none)
  match parseCol group_by with
  | none => Except.error ("Column " ++ group_by ++ " not found")
  | some c =>
    Except.ok (pyHead limit
      (((((fd.map (colKey c)).dedup).insertionSort keyLe).filterMap
        (boxGroup fd c)).insertionSort medGe))

/-- Mean and scale of `StandardScaler.fit` on a price series: population mean
and population standard deviation, a zero deviation being replaced by `1`. -/
def scalerParams (msqrt : ℚ → ℚ) (l : List ℚ) : ℚ × ℚ :=
  let m := l.sum / (l.length : ℚ)
  let s := msqrt ((l.map (fun x => (x - m) * (x - m))).sum / (l.length : ℚ))
  (m, if s = 0 then 1 else s)

/-- One entry of the `cluster_stats` list of `get_clustering`. -/
structure ClusterStat where
  cluster_id : Nat
  count : Nat
  min_price : Option ℚ
  max_price : Option ℚ
  avg_price : Option ℚ
  center : ℚ
deriving DecidableEq

/-- One row of the `data_sample` list of `get_clustering`. -/
structure SampleRow where
  id : Nat
  nombre_comercial : String
  principio_activo : String
  fabricante : String
  precio_por_tableta : ℚ
  cluster : Nat
deriving DecidableEq

/-- `DataService.get_clustering`: standardizes the default-filtered view's
prices, validates the scikit-learn preconditions (at least one sample for
`StandardScaler.fit`, `1 ≤ n_clusters ≤ n_samples` for `KMeans.fit`) and then
applies the fitted predictor, which is supplied as a parameter
`km : n_clusters → standardized points → (labels, centroids)` modelling the
seeded `KMeans(random_state=42)`.  Per-cluster statistics are taken over the
labelled copy of the view, centroids are mapped back to price units, and the
first 100 labelled rows form the sample. -/
def get_clustering (msqrt : ℚ → ℚ) (km : Nat → List ℚ → List Nat × List ℚ)
    (df : List Record) (ai : Option String) (n_clusters : Int) :
    Except String (List ClusterStat × List SampleRow) :=
  let fd := filter_data df (defaultArgs ai none)
  let x := fd.map (fun r => r.precio_por_tableta)
  if x.length = 0 then
    Except.error "Found array with 0 sample(s) while a minimum of 1 is required"
  else
    let p := scalerParams msqrt x
    let xs := x.map (fun v => (v - p.1) / p.2)
    if n_clusters < 1 then
      Except.error "The n_clusters parameter must be at least 1"
    else if (x.length : Int) < n_clusters then
      Except.error "n_samples should be >= n_clusters"
    else
      let k := n_clusters.toNat
      let fitted := km k xs
      let labeled := fd.zip fitted.1
      Except.ok
        ((List.range k).map (fun i =>
          let ci := (labeled.filter (fun pr => pr.2 == i)).map
            (fun pr => pr.1.precio_por_tableta)
          ⟨i, ci.length, listMin ci, listMax ci, listMean ci,
           fitted.2.getD i 0 * p.2 + p.1⟩),
         (labeled.take 100).map (fun pr =>
          ⟨pr.1.id, pr.1.nombre_comercial, pr.1.principio_activo, pr.1.fabricante,
           pr.1.precio_por_tableta, pr.2⟩))

/-- One row of the `anomaly_data` list of `get_anomalies`. -/
structure AnomalyRow where
  id : Nat
  nombre_comercial : String
  principio_activo : String
  fabricante : String
  precio_por_tableta : ℚ
  is_anomaly : Bool
deriving DecidableEq

/-- The `stats` dictionary of `get_anomalies`.  The thresholds are `Option ℚ`
because `normal_prices.std()` is NaN when the normal subset is a singleton. -/
structure AnomalyStats where
  normal_count : Nat
  anomaly_count : Nat
  normal_avg_price : ℚ
  anomaly_avg_price : ℚ
  price_threshold_upper : Option ℚ
  price_threshold_lower : Option ℚ
deriving DecidableEq

/-- Comparison of possibly-NaN values: false whenever either side is NaN,
mirroring IEEE semantics. -/
def optLe : Option ℚ → Option ℚ → Prop
  | some x, some y => x ≤ y
  | _, _ => False

instance : (a b : Option ℚ) → Decidable (optLe a b)
  | some x, some y => inferInstanceAs (Decidable (x ≤ y))
  | some _, none => isFalse (fun h => h)
  | none, _ => isFalse (fun h => h)

/-- The `stats` dictionary computed by `get_anomalies` from the labelled view:
counts and mean prices of the normal and anomalous subsets, and thresholds at
the normal mean ± 2 sample standard deviations (`0` when the normal subset is
empty; NaN, i.e. `none`, when it is a singleton, since `Series.std` has
denominator `n − 1`). -/
def anomalyStatsOf (msqrt : ℚ → ℚ) (labeled : List (Record × Bool)) : AnomalyStats :=
  let normal := (labeled.filter (fun pr => !pr.2)).map (fun pr => pr.1.precio_por_tableta)
  let anom := (labeled.filter (fun pr => pr.2)).map (fun pr => pr.1.precio_por_tableta)
  ⟨normal.length, anom.length,
   if normal.length > 0 then normal.sum / (normal.length : ℚ) else 0,
   if anom.length > 0 then anom.sum / (anom.length : ℚ) else 0,
   if normal.length > 0 then
     (sampleStd msqrt normal).map (fun s => normal.sum / (normal.length : ℚ) + 2 * s)
   else some 0,
   if normal.length > 0 then
     (sampleStd msqrt normal).map (fun s => normal.sum / (normal.length : ℚ) - 2 * s)
   else some 0⟩

/-- The `anomaly_data` list computed by `get_anomalies` from the labelled
view: the flagged records sorted by descending price, each carrying its
anomaly flag. -/
def anomalyRowsOf (labeled : List (Record × Bool)) : List AnomalyRow :=
  ((labeled.filter (fun pr => pr.2)).insertionSort
    (fun pr1 pr2 => pr2.1.precio_por_tableta ≤ pr1.1.precio_por_tableta)).map
    (fun pr => ⟨pr.1.id, pr.1.nombre_comercial, pr.1.principio_activo,
      pr.1.fabricante, pr.1.precio_por_tableta, pr.2⟩)

/-- `DataService.get_anomalies`: standardizes the default-filtered view's
prices, validates the scikit-learn preconditions (at least one sample for
`StandardScaler.fit`, contamination in `(0, 0.5]` for `IsolationForest`) and
applies the fitted classifier, supplied as a parameter
`forest : contamination → standardized points → anomaly flags` modelling the
seeded `IsolationForest(random_state=42)` composed with the `{1: 0, -1: 1}`
relabelling; the stats and the flagged rows are computed from the labelled
copy of the view. -/
def get_anomalies (msqrt : ℚ → ℚ) (forest : ℚ → List ℚ → List Bool)
    (df : List Record) (ai : Option String) (contamination : ℚ) :
    Except String (AnomalyStats × List AnomalyRow) :=
  let fd := filter_data df (defaultArgs ai none)
  let x := fd.map (fun r => r.precio_por_tableta)
  if x.length = 0 then
    Except.error "Found array with 0 sample(s) while a minimum of 1 is required"
  else
    let p := scalerParams msqrt x
    let xs := x.map (fun v => (v - p.1) / p.2)
    if ¬(0 < contamination ∧ contamination ≤ 1 / 2) then
      Except.error "contamination must be in (0, 0.5]"
    else
      let labeled := fd.zip (forest contamination xs)
      Except.ok (anomalyStatsOf msqrt labeled, anomalyRowsOf labeled)

/-- Decidable equality for result wrappers, so that concrete runs of the
operations can be checked by evaluation. -/
instance {e a : Type} [DecidableEq e] [DecidableEq a] : DecidableEq (Except e a) :=
  fun x y =>
    match x, y with
    | Except.error u, Except.error v =>
      if h : u = v then isTrue (by rw [h]) else
        isFalse (fun hc => h (Except.error.inj hc))
    | Except.ok u, Except.ok v =>
      if h : u = v then isTrue (by rw [h]) else
        isFalse (fun hc => h (Except.ok.inj hc))
    | Except.error _, Except.ok _ => isFalse (fun hc => Except.noConfusion hc)
    | Except.ok _, Except.error _ => isFalse (fun hc => Except.noConfusion hc)

/-- The service object of `data_service.py`: it owns the loaded Dataset in its
`df` attribute. -/
structure DataService where
  df : List Record
deriving DecidableEq

/-- `filter_data` as a method: reads `self.df`, works on a copy, and returns
the service in its resulting state alongside the view. -/
def filter_dataS (s : DataService) (a : FilterArgs) : List Record × DataService :=
  (filter_data s.df a, s)

/-- `get_summary_stats` as a method, returning the resulting service state. -/
def get_summary_statsS (msqrt : ℚ → ℚ) (s : DataService) (ai m : Option String) :
    SummaryStats × DataService :=
  (get_summary_stats msqrt s.df ai m, s)

/-- `get_histogram_data` as a method, returning the resulting service state. -/
def get_histogram_dataS (s : DataService) (ai m : Option String) (bins : Int) :
    Except String (List HistBin) × DataService :=
  (get_histogram_data s.df ai m bins, s)

/-- `get_boxplot_data` as a method, returning the resulting service state. -/
def get_boxplot_dataS (s : DataService) (group_by : String) (ai : Option String)
    (limit : Int) : Except String (List BoxStat) × DataService :=
  (get_boxplot_data s.df group_by ai limit, s)

/-- `get_clustering` as a method: the cluster labels are attached to the copied
view only, and the service is returned in its resulting state. -/
def get_clusteringS (msqrt : ℚ → ℚ) (km : Nat → List ℚ → List Nat × List ℚ)
    (s : DataService) (ai : Option String) (n_clusters : Int) :
    Except String (List ClusterStat × List SampleRow) × DataService :=
  (get_clustering msqrt km s.df ai n_clusters, s)

/-- `get_anomalies` as a method: the anomaly labels are attached to the copied
view only, and the service is returned in its resulting state. -/
def get_anomaliesS (msqrt : ℚ → ℚ) (forest : ℚ → List ℚ → List Bool)
    (s : DataService) (ai : Option String) (contamination : ℚ) :
    Except String (AnomalyStats × List AnomalyRow) × DataService :=
  (get_anomalies msqrt forest s.df ai contamination, s)

/-- The `app.py` route `/api/data`: the empty-Dataset guard, then the filtered
records with their count. -/
def api_data (s : DataService) (a : FilterArgs) :
    Except String (Nat × List Record) :=
  if s.df.isEmpty then Except.error "No data available"
  else
    let res := filter_data s.df a
    Except.ok (res.length, res)

/-- The `app.py` route `/api/summary`: the empty-Dataset guard, then the
summary statistics. -/
def api_summary (msqrt : ℚ → ℚ) (s : DataService) (ai m : Option String) :
    Except String SummaryStats :=
  if s.df.isEmpty then Except.error "No data available"
  else Except.ok (get_summary_stats msqrt s.df ai m)

/-- The `app.py` route `/api/histogram`: the empty-Dataset guard, then the
histogram data. -/
def api_histogram (s : DataService) (ai m : Option String) (bins : Int) :
    Except String (List HistBin) :=
  if s.df.isEmpty then Except.error "No data available"
  else get_histogram_data s.df ai m bins

/-- The `app.py` route `/api/boxplot`: the empty-Dataset guard, then the
boxplot data (a column-not-found error is forwarded with status 400). -/
def api_boxplot (s : DataService) (group_by : String) (ai : Option String)
    (limit : Int) : Except String (List BoxStat) :=
  if s.df.isEmpty then Except.error "No data available"
  else get_boxplot_data s.df group_by ai limit

/-- The `app.py` route `/api/ml/clusters`: the empty-Dataset guard, then the
clustering results. -/
def api_clusters (msqrt : ℚ → ℚ) (km : Nat → List ℚ → List Nat × List ℚ)
    (s : DataService) (ai : Option String) (n_clusters : Int) :
    Except String (List ClusterStat × List SampleRow) :=
  if s.df.isEmpty then Except.error "No data available"
  else get_clustering msqrt km s.df ai n_clusters

/-- The `app.py` route `/api/ml/anomalies`: the empty-Dataset guard, then the
anomaly-detection results. -/
def api_anomalies (msqrt : ℚ → ℚ) (forest : ℚ → List ℚ → List Bool)
    (s : DataService) (ai : Option String) (contamination : ℚ) :
    Except String (AnomalyStats × List AnomalyRow) :=
  if s.df.isEmpty then Except.error "No data available"
  else get_anomalies msqrt forest s.df ai contamination

/-- Identity stand-in for the library square root in concrete instantiations
(only its nonnegativity on nonnegative inputs is ever used). -/
def sqrtId : ℚ → ℚ := fun q => q

/-- Concrete k-means stand-in for instantiations: every point in cluster 0,
all centroids at 0. -/
def kmStub : Nat → List ℚ → List Nat × List ℚ :=
  fun k xs => (xs.map (fun _ => 0), List.replicate k 0)

/-- Concrete classifier stand-in flagging points with positive standardized
price. -/
def forestPos : ℚ → List ℚ → List Bool :=
  fun _ xs => xs.map (fun x => decide (0 < x))

/-- Concrete classifier stand-in flagging nothing. -/
def forestNone : ℚ → List ℚ → List Bool :=
  fun _ xs => xs.map (fun _ => false)

/-- Sample record for concrete instantiations. -/
def recA : Record :=
  ⟨0, "DOLEX", "ACETAMINOFEN", "GSK", "500mg", "COMERCIAL", "TABLETA", 10⟩

/-- Second sample record: same ingredient, different manufacturer and price. -/
def recB : Record :=
  ⟨1, "TYLENOL", "ACETAMINOFEN", "JANSSEN", "500mg", "COMERCIAL", "TABLETA", 30⟩

/-- Third sample record: a different ingredient. -/
def recC : Record :=
  ⟨2, "ASPIRINA", "ASA", "BAYER", "100mg", "COMERCIAL", "TABLETA", 20⟩

/-- Record with price 1 for the anomaly-threshold instantiations. -/
def recP1 : Record :=
  ⟨0, "GEN1", "ASA", "BAYER", "100mg", "COMERCIAL", "TABLETA", 1⟩

/-- Record with price 3 for the anomaly-threshold instantiations. -/
def recP3 : Record :=
  ⟨1, "GEN3", "ASA", "BAYER", "100mg", "COMERCIAL", "TABLETA", 3⟩

/-- Five-record dataset forming one manufacturer group of size 5 with prices
1..5, for concrete boxplot runs. -/
def dfBox : List Record :=
  [⟨0, "B1", "ASA", "ACME", "100mg", "COMERCIAL", "TABLETA", 1⟩,
   ⟨1, "B2", "ASA", "ACME", "100mg", "COMERCIAL", "TABLETA", 2⟩,
   ⟨2, "B3", "ASA", "ACME", "100mg", "COMERCIAL", "TABLETA", 3⟩,
   ⟨3, "B4", "ASA", "ACME", "100mg", "COMERCIAL", "TABLETA", 4⟩,
   ⟨4, "B5", "ASA", "ACME", "100mg", "COMERCIAL", "TABLETA", 5⟩]

/-- The boxplot summary of the single group of `dfBox`. -/
def boxAcme : BoxStat := ⟨Sum.inl "ACME", 1, 2, 3, 4, 5, 5⟩

/-- The anomaly stats produced on `[recP1, recP3]` when exactly the
higher-priced record is flagged. -/
def statPos : AnomalyStats := ⟨1, 1, 1, 3, none, none⟩

/-- The anomaly stats produced on `[recP1, recP3]` when nothing is flagged. -/
def statNone : AnomalyStats := ⟨2, 0, 2, 0, some 6, some (-2)⟩

/-- The anomaly row reported for `recP3`. -/
def rowP3 : AnomalyRow := ⟨1, "GEN3", "ASA", "BAYER", 3, true⟩

section FilterLemmas

lemma mem_of_eqFilt {v : Option String} {proj : Record → String} {l : List Record}
    {r : Record} (h : r ∈ eqFilt v proj l) : r ∈ l := by
  cases v with
  | none => exact h
  | some s =>
    simp only [eqFilt] at h
    by_cases hs : s = ""
    · simpa [hs] using h
    · rw [if_neg hs] at h
      exact (List.mem_filter.mp h).1

lemma eq_of_eqFilt {v : Option String} {proj : Record → String} {l : List Record}
    {r : Record} (h : r ∈ eqFilt v proj l) {s : String} (hv : v = some s)
    (hs : s ≠ "") : proj r = s := by
  subst hv
  simp only [eqFilt] at h
  rw [if_neg hs] at h
  simpa using (List.mem_filter.mp h).2

lemma mem_of_minFilt {v : Option ℚ} {l : List Record} {r : Record}
    (h : r ∈ minFilt v l) : r ∈ l := by
  cases v with
  | none => exact h
  | some m => exact (List.mem_filter.mp h).1

lemma le_of_minFilt {v : Option ℚ} {l : List Record} {r : Record}
    (h : r ∈ minFilt v l) {m : ℚ} (hv : v = some m) : m ≤ r.precio_por_tableta := by
  subst hv
  simpa using (List.mem_filter.mp h).2

lemma mem_of_maxFilt {v : Option ℚ} {l : List Record} {r : Record}
    (h : r ∈ maxFilt v l) : r ∈ l := by
  cases v with
  | none => exact h
  | some m => exact (List.mem_filter.mp h).1

lemma le_of_maxFilt {v : Option ℚ} {l : List Record} {r : Record}
    (h : r ∈ maxFilt v l) {m : ℚ} (hv : v = some m) : r.precio_por_tableta ≤ m := by
  subst hv
  simpa using (List.mem_filter.mp h).2

lemma mem_sortStep {sb so : String} {l : List Record} {r : Record} :
    r ∈ sortStep sb so l ↔ r ∈ l := by
  unfold sortStep
  cases h : parseCol sb with
  | none => simp
  | some c =>
    by_cases ha : pyLower so = "asc" <;> simp [ha, List.mem_insertionSort]

lemma mem_of_limitStep {v : Option Int} {l : List Record} {r : Record}
    (h : r ∈ limitStep v l) : r ∈ l := by
  cases v with
  | none => exact h
  | some n =>
    simp only [limitStep] at h
    by_cases hn : n = 0
    · simpa [hn] using h
    · rw [if_neg hn] at h
      unfold pyHead at h
      by_cases hp : (0 : Int) ≤ n
      · rw [if_pos hp] at h
        exact List.take_subset _ _ h
      · rw [if_neg hp] at h
        exact List.take_subset _ _ h

lemma length_limitStep_le {n : Int} (hn : 0 < n) (l : List Record) :
    ((limitStep (some n) l).length : Int) ≤ n := by
  simp only [limitStep]
  rw [if_neg (by omega : ¬n = 0)]
  unfold pyHead
  rw [if_pos hn.le]
  have h1 := List.length_take_le n.toNat l
  have h2 : (n.toNat : Int) = n := Int.toNat_of_nonneg hn.le
  omega

lemma mem_of_filter_data {df : List Record} {a : FilterArgs} {r : Record}
    (h : r ∈ filter_data df a) : r ∈ df :=
  mem_of_eqFilt (mem_of_eqFilt (mem_of_eqFilt (mem_of_eqFilt (mem_of_eqFilt
    (mem_of_minFilt (mem_of_maxFilt (mem_sortStep.mp (mem_of_limitStep h))))))))

end FilterLemmas

/-- C1 counterexample.  The claim fails as stated: a supplied empty-string
equality value is falsy in Python, so no equality filtering happens (the lone
record's ingredient is not `""`), and a supplied `limit` of `0` is falsy, so no
truncation happens and the view's size exceeds the requested limit. -/
theorem C1_counterexample :
    ¬(∀ r ∈ filter_data [recA]
        ⟨some "", none, none, none, none, none, none, "precio_por_tableta", "asc", some 0⟩,
        r.principio_activo = "") ∧
    ¬((filter_data [recA]
        ⟨some "", none, none, none, none, none, none, "precio_por_tableta", "asc", some 0⟩).length
      ≤ 0) := by
  decide

/-- C1 (amended): every record of the filtered view matches each supplied
non-empty equality value exactly and lies within the supplied price bounds,
and whenever the supplied limit is positive the view's size does not exceed
it. -/
theorem C1_filter_view_sound (df : List Record) (a : FilterArgs) :
    (∀ r ∈ filter_data df a,
      (∀ s, a.active_ingredient = some s → s ≠ "" → r.principio_activo = s) ∧
      (∀ s, a.manufacturer = some s → s ≠ "" → r.fabricante = s) ∧
      (∀ s, a.concentration = some s → s ≠ "" → r.concentracion = s) ∧
      (∀ s, a.channel = some s → s ≠ "" → r.canal = s) ∧
      (∀ s, a.dispensing_unit = some s → s ≠ "" → r.unidad_de_dispensacion = s) ∧
      (∀ m, a.min_price = some m → m ≤ r.precio_por_tableta) ∧
      (∀ m, a.max_price = some m → r.precio_por_tableta ≤ m)) ∧
    (∀ n, a.limit = some n → 0 < n → ((filter_data df a).length : Int) ≤ n) := by
  constructor
  · intro r hr
    have h1 := mem_sortStep.mp (mem_of_limitStep hr)
    have h2 := mem_of_maxFilt h1
    have h3 := mem_of_minFilt h2
    have h4 := mem_of_eqFilt h3
    have h5 := mem_of_eqFilt h4
    have h6 := mem_of_eqFilt h5
    have h7 := mem_of_eqFilt h6
    refine ⟨fun s hv hs => eq_of_eqFilt h7 hv hs,
      fun s hv hs => eq_of_eqFilt h6 hv hs,
      fun s hv hs => eq_of_eqFilt h5 hv hs,
      fun s hv hs => eq_of_eqFilt h4 hv hs,
      fun s hv hs => eq_of_eqFilt h3 hv hs,
      fun m hv => le_of_minFilt h2 hv,
      fun m hv => le_of_maxFilt h1 hv⟩
  · intro n hv hn
    unfold filter_data
    rw [hv]
    exact length_limitStep_le hn _

/-- C1 witness: a concrete filtered view where the theorem yields the exact
ingredient match and the limit bound. -/
theorem C1_witness :
    recA.principio_activo = "ACETAMINOFEN" ∧
    ((filter_data [recA, recB, recC] (defaultArgs (some "ACETAMINOFEN") none)).length : Int)
      ≤ 50 :=
  ⟨((C1_filter_view_sound [recA, recB, recC]
        (defaultArgs (some "ACETAMINOFEN") none)).1 recA (by decide)).1
      "ACETAMINOFEN" rfl (by decide),
   (C1_filter_view_sound [recA, recB, recC] (defaultArgs (some "ACETAMINOFEN") none)).2
      50 rfl (by decide)⟩

/-- C2: no core operation mutates the Dataset held by the service — each
method returns the service in a state equal to its pre-call state (the
clustering and anomaly label columns are attached only to the copied view),
and the filtered view draws its records from the Dataset without adding any. -/
theorem C2_no_mutation (msqrt : ℚ → ℚ) (km : Nat → List ℚ → List Nat × List ℚ)
    (forest : ℚ → List ℚ → List Bool) (s : DataService) (a : FilterArgs)
    (ai m : Option String) (bins : Int) (gb : String) (lim : Int) (k : Int) (c : ℚ) :
    (filter_dataS s a).2 = s ∧
    (get_summary_statsS msqrt s ai m).2 = s ∧
    (get_histogram_dataS s ai m bins).2 = s ∧
    (get_boxplot_dataS s gb ai lim).2 = s ∧
    (get_clusteringS msqrt km s ai k).2 = s ∧
    (get_anomaliesS msqrt forest s ai c).2 = s ∧
    (∀ r ∈ (filter_dataS s a).1, r ∈ s.df) :=
  ⟨rfl, rfl, rfl, rfl, rfl, rfl, fun _ hr => mem_of_filter_data hr⟩

/-- C3: on an empty Dataset every route of `app.py` answers with the
no-data-available error before delegating to any computation. -/
theorem C3_empty_dataset (msqrt : ℚ → ℚ) (km : Nat → List ℚ → List Nat × List ℚ)
    (forest : ℚ → List ℚ → List Bool) (s : DataService) (h : s.df = [])
    (a : FilterArgs) (ai m : Option String) (bins : Int) (gb : String)
    (lim : Int) (k : Int) (c : ℚ) :
    api_data s a = Except.error "No data available" ∧
    api_summary msqrt s ai m = Except.error "No data available" ∧
    api_histogram s ai m bins = Except.error "No data available" ∧
    api_boxplot s gb ai lim = Except.error "No data available" ∧
    api_clusters msqrt km s ai k = Except.error "No data available" ∧
    api_anomalies msqrt forest s ai c = Except.error "No data available" := by
  simp [api_data, api_summary, api_histogram, api_boxplot, api_clusters, api_anomalies, h]

/-- C3 witness: the routes answer no-data on the concretely empty service. -/
theorem C3_witness :
    api_data ⟨[]⟩ (defaultArgs none none) = Except.error "No data available" ∧
    api_clusters sqrtId kmStub ⟨[]⟩ none 3 = Except.error "No data available" :=
  ⟨(C3_empty_dataset sqrtId kmStub forestNone ⟨[]⟩ rfl (defaultArgs none none)
      none none 10 "fabricante" 10 3 (1 / 20)).1,
   (C3_empty_dataset sqrtId kmStub forestNone ⟨[]⟩ rfl (defaultArgs none none)
      none none 10 "fabricante" 10 3 (1 / 20)).2.2.2.2.1⟩

/-- C4 counterexample.  The claim fails as stated: when both an
active-ingredient filter and a manufacturer filter are supplied,
`get_summary_stats` adds the manufacturer breakdown *and* the
active-ingredient breakdown to the same result. -/
theorem C4_counterexample :
    (get_summary_stats sqrtId [recA, recB, recC] (some "ACETAMINOFEN")
        (some "GSK")).manufacturers.isSome = true ∧
    (get_summary_stats sqrtId [recA, recB, recC] (some "ACETAMINOFEN")
        (some "GSK")).active_ingredients.isSome = true := by
  decide

/-- C4 (amended): each breakdown axis is computed independently — the
manufacturer breakdown is present iff a non-empty active-ingredient filter was
supplied, and the active-ingredient breakdown is present iff a non-empty
manufacturer filter was supplied; in particular both are present when both
filters are supplied. -/
theorem C4_breakdown_axes (msqrt : ℚ → ℚ) (df : List Record) (ai m : Option String) :
    ((get_summary_stats msqrt df ai m).manufacturers.isSome ↔
      ∃ s, ai = some s ∧ s ≠ "") ∧
    ((get_summary_stats msqrt df ai m).active_ingredients.isSome ↔
      ∃ s, m = some s ∧ s ≠ "") := by
  constructor
  · cases ai with
    | none => simp [get_summary_stats]
    | some s =>
      by_cases hs : s = "" <;> simp [get_summary_stats, hs]
  · cases m with
    | none => simp [get_summary_stats]
    | some s =>
      by_cases hs : s = "" <;> simp [get_summary_stats, hs]

/-- C4 witness: a supplied non-empty ingredient filter concretely yields a
manufacturer breakdown. -/
theorem C4_witness :
    (get_summary_stats sqrtId [recA] (some "ACETAMINOFEN") none).manufacturers.isSome :=
  (C4_breakdown_axes sqrtId [recA] (some "ACETAMINOFEN") none).1.mpr
    ⟨"ACETAMINOFEN", rfl, by decide⟩

/-- C5: a non-positive bin count makes the histogram operation fail with the
numpy validation error naming `bins`, raised before the histogram is
computed. -/
theorem C5_bins_validation (df : List Record) (ai m : Option String) (bins : Int)
    (h : bins ≤ 0) :
    get_histogram_data df ai m bins =
      Except.error "`bins` must be positive, when an integer" := by
  have hb : bins < 1 := by omega
  simp [get_histogram_data, np_histogram, hb]

/-- C5 witness: the validation error at the concrete bin count `0`. -/
theorem C5_witness :
    get_histogram_data [recA] none none 0 =
      Except.error "`bins` must be positive, when an integer" :=
  C5_bins_validation [recA] none none 0 (by decide)

section QuantileLemmas

lemma ratFloorNat_cast (q : ℚ) (hq : 0 ≤ q) : (ratFloorNat q : ℤ) = ⌊q⌋ := by
  have hnum : 0 ≤ q.num := Rat.num_nonneg.mpr hq
  obtain ⟨a, ha⟩ := Int.eq_ofNat_of_zero_le hnum
  rw [Rat.floor_def, ratFloorNat, ha]
  simp [Int.ofNat_div]

lemma ratFloorNat_le {q : ℚ} (hq : 0 ≤ q) : (ratFloorNat q : ℚ) ≤ q := by
  have hc := ratFloorNat_cast q hq
  have h1 : ((ratFloorNat q : ℤ) : ℚ) ≤ q := by
    rw [hc]
    exact Int.floor_le q
  exact_mod_cast h1

lemma lt_ratFloorNat_add_one {q : ℚ} (hq : 0 ≤ q) : q < (ratFloorNat q : ℚ) + 1 := by
  have hc := ratFloorNat_cast q hq
  have h1 : q < ((⌊q⌋ : ℤ) : ℚ) + 1 := Int.lt_floor_add_one q
  rw [← hc] at h1
  exact_mod_cast h1

lemma ratFloorNat_mono {a b : ℚ} (ha : 0 ≤ a) (hab : a ≤ b) :
    ratFloorNat a ≤ ratFloorNat b := by
  have hb : 0 ≤ b := le_trans ha hab
  have h1 : (ratFloorNat a : ℤ) ≤ (ratFloorNat b : ℤ) := by
    rw [ratFloorNat_cast a ha, ratFloorNat_cast b hb]
    exact Int.floor_le_floor hab
  exact_mod_cast h1

lemma clampIdx_mono {s : List ℚ} (hs : List.Sorted (fun a b : ℚ => a ≤ b) s)
    (hl : 1 ≤ s.length) {j k : ℕ} (hjk : j ≤ k) : clampIdx s j ≤ clampIdx s k := by
  unfold clampIdx
  have hj : min j (s.length - 1) < s.length := by omega
  have hk : min k (s.length - 1) < s.length := by omega
  rw [List.getD_eq_getElem _ _ hj, List.getD_eq_getElem _ _ hk]
  have hm : min j (s.length - 1) ≤ min k (s.length - 1) := by omega
  rcases eq_or_lt_of_le hm with h | h
  · exact le_of_eq (by congr 1)
  · exact hs.rel_get_of_lt (by exact h)

lemma interp_mono {s : List ℚ} (hs : List.Sorted (fun a b : ℚ => a ≤ b) s)
    (hl : 1 ≤ s.length) {h1 h2 : ℚ} (h0 : 0 ≤ h1) (h12 : h1 ≤ h2) :
    clampIdx s (ratFloorNat h1) +
        (h1 - (ratFloorNat h1 : ℚ)) *
          (clampIdx s (ratFloorNat h1 + 1) - clampIdx s (ratFloorNat h1)) ≤
      clampIdx s (ratFloorNat h2) +
        (h2 - (ratFloorNat h2 : ℚ)) *
          (clampIdx s (ratFloorNat h2 + 1) - clampIdx s (ratFloorNat h2)) := by
  have h02 : 0 ≤ h2 := le_trans h0 h12
  have hii : ratFloorNat h1 ≤ ratFloorNat h2 := ratFloorNat_mono h0 h12
  have hd1 : clampIdx s (ratFloorNat h1) ≤ clampIdx s (ratFloorNat h1 + 1) :=
    clampIdx_mono hs hl (Nat.le_succ _)
  have hd2 : clampIdx s (ratFloorNat h2) ≤ clampIdx s (ratFloorNat h2 + 1) :=
    clampIdx_mono hs hl (Nat.le_succ _)
  have hg1lo : 0 ≤ h1 - (ratFloorNat h1 : ℚ) := by
    have := ratFloorNat_le h0
    linarith
  have hg1hi : h1 - (ratFloorNat h1 : ℚ) ≤ 1 := by
    have := lt_ratFloorNat_add_one h0
    linarith
  have hg2lo : 0 ≤ h2 - (ratFloorNat h2 : ℚ) := by
    have := ratFloorNat_le h02
    linarith
  rcases eq_or_lt_of_le hii with he | hlt
  · rw [← he]
    nlinarith [mul_nonneg (sub_nonneg.mpr h12)
      (sub_nonneg.mpr hd1)]
  · have step1 : clampIdx s (ratFloorNat h1) +
        (h1 - (ratFloorNat h1 : ℚ)) *
          (clampIdx s (ratFloorNat h1 + 1) - clampIdx s (ratFloorNat h1)) ≤
        clampIdx s (ratFloorNat h1 + 1) := by
      nlinarith [mul_nonneg (by linarith : (0 : ℚ) ≤ 1 - (h1 - (ratFloorNat h1 : ℚ)))
        (sub_nonneg.mpr hd1)]
    have step2 : clampIdx s (ratFloorNat h1 + 1) ≤ clampIdx s (ratFloorNat h2) :=
      clampIdx_mono hs hl (Nat.succ_le_of_lt hlt)
    have step3 : clampIdx s (ratFloorNat h2) ≤ clampIdx s (ratFloorNat h2) +
        (h2 - (ratFloorNat h2 : ℚ)) *
          (clampIdx s (ratFloorNat h2 + 1) - clampIdx s (ratFloorNat h2)) := by
      nlinarith [mul_nonneg hg2lo (sub_nonneg.mpr hd2)]
    linarith

lemma quantile_mono {s : List ℚ} (hs : List.Sorted (fun a b : ℚ => a ≤ b) s)
    (hl : 1 ≤ s.length) {a b : ℚ} (ha : 0 ≤ a) (hab : a ≤ b) :
    quantile s a ≤ quantile s b := by
  have hn : (0 : ℚ) ≤ (s.length : ℚ) - 1 := by
    have : (1 : ℚ) ≤ (s.length : ℚ) := by exact_mod_cast hl
    linarith
  unfold quantile
  exact interp_mono hs hl (mul_nonneg ha hn) (mul_le_mul_of_nonneg_right hab hn)

end QuantileLemmas

/-- C7: every group reported by the boxplot operation has at least 5 members,
the groups come sorted by non-increasing median and truncated to the first
`limit` of them, and `q1 ≤ median ≤ q3` holds within every group. -/
lemma boxGroup_shape {fd : List Record} {c : Col} {k : ColKey} {g : BoxStat}
    (h : boxGroup fd c k = some g) :
    5 ≤ g.count ∧ g.q1 ≤ g.median ∧ g.median ≤ g.q3 := by
  unfold boxGroup at h
  dsimp only at h
  split_ifs at h with hlen
  have hbox := Option.some.inj h
  have hps := List.sorted_insertionSort (fun a b : ℚ => a ≤ b)
    ((fd.filter (fun r => colKey c r == k)).map (fun r => r.precio_por_tableta))
  have hplen : 1 ≤ (((fd.filter (fun r => colKey c r == k)).map
      (fun r => r.precio_por_tableta)).insertionSort (fun a b : ℚ => a ≤ b)).length := by
    rw [List.length_insertionSort, List.length_map]
    omega
  rw [← hbox]
  exact ⟨by dsimp only; omega, quantile_mono hps hplen (by norm_num) (by norm_num),
    quantile_mono hps hplen (by norm_num) (by norm_num)⟩

/-- C7: every group reported by the boxplot operation has at least 5 members,
the groups come sorted by non-increasing median and truncated to the first
`limit` of them, and `q1 ≤ median ≤ q3` holds within every group. -/
theorem C7_boxplot_groups (df : List Record) (gb : String) (ai : Option String)
    (limit : Int) (hl : 0 ≤ limit) (res : List BoxStat)
    (hres : get_boxplot_data df gb ai limit = Except.ok res) :
    (∀ g ∈ res, 5 ≤ g.count) ∧
    res.length ≤ limit.toNat ∧
    List.Pairwise medGe res ∧
    (∀ g ∈ res, g.q1 ≤ g.median ∧ g.median ≤ g.q3) := by
  unfold get_boxplot_data at hres
  cases hpc : parseCol gb with
  | none =>
    rw [hpc] at hres
    exact absurd hres (by simp)
  | some c =>
    rw [hpc] at hres
    dsimp only at hres
    have hres3 := (Except.ok.inj hres).symm
    set fd := filter_data df (defaultArgs ai none) with hfd
    set raw := ((((fd.map (colKey c)).dedup).insertionSort keyLe).filterMap
      (boxGroup fd c)) with hraw
    have htake : pyHead limit (raw.insertionSort medGe) =
        (raw.insertionSort medGe).take limit.toNat := by
      unfold pyHead
      rw [if_pos hl]
    have hmemraw : ∀ g ∈ res, g ∈ raw := by
      intro g hg
      rw [hres3, htake] at hg
      exact (List.mem_insertionSort medGe).mp (List.take_subset _ _ hg)
    have hshape : ∀ g ∈ raw, 5 ≤ g.count ∧ g.q1 ≤ g.median ∧ g.median ≤ g.q3 := by
      intro g hg
      obtain ⟨k, _, hf⟩ := List.mem_filterMap.mp hg
      exact boxGroup_shape hf
    refine ⟨fun g hg => (hshape g (hmemraw g hg)).1, ?_, ?_,
      fun g hg => (hshape g (hmemraw g hg)).2⟩
    · rw [hres3, htake]
      exact List.length_take_le _ _
    · rw [hres3, htake]
      exact List.Pairwise.sublist (List.take_sublist _ _)
        (List.sorted_insertionSort medGe raw)

section HistogramLemmas

lemma getD_range_map {β : Type} (g : ℕ → β) (d : β) {n i : ℕ} (h : i < n) :
    ((List.range n).map g).getD i d = g i := by
  have hlen : i < ((List.range n).map g).length := by simpa using h
  rw [List.getD_eq_getElem _ _ hlen, List.getElem_map, List.getElem_range]

lemma map_getD_range_self {β : Type} (l : List β) (d : β) :
    (List.range l.length).map (fun i => l.getD i d) = l := by
  apply List.ext_getElem
  · simp
  · intro i h1 h2
    rw [List.getElem_map, List.getElem_range, List.getD_eq_getElem _ _ h2]

lemma sum_map_add_nat {α : Type} (l : List α) (f g : α → ℕ) :
    (l.map (fun x => f x + g x)).sum = (l.map f).sum + (l.map g).sum := by
  induction l with
  | nil => simp
  | cons a t ih =>
    simp only [List.map_cons, List.sum_cons, ih]
    omega

lemma sum_range_indicator (k n : ℕ) (hk : k < n) :
    ((List.range n).map (fun i => if k = i then 1 else 0)).sum = 1 := by
  induction n with
  | zero => omega
  | succ n ih =>
    rw [List.range_succ, List.map_append, List.sum_append]
    by_cases h : k = n
    · subst h
      have h0 : ((List.range k).map (fun i => if k = i then 1 else 0)).sum = 0 := by
        apply List.sum_eq_zero
        intro x hx
        obtain ⟨i, hi, hxi⟩ := List.mem_map.mp hx
        have : i < k := List.mem_range.mp hi
        rw [← hxi, if_neg (by omega)]
      simp [h0]
    · have hk2 : k < n := by omega
      rw [ih hk2]
      simp [h]

lemma sum_filter_classes {α : Type} (f : α → ℕ) (n : ℕ) (l : List α)
    (hl : ∀ x ∈ l, f x < n) :
    ((List.range n).map (fun i => (l.filter (fun x => f x == i)).length)).sum
      = l.length := by
  induction l with
  | nil => simp
  | cons a t ih =>
    have ha : f a < n := hl a (by simp)
    have ht : ∀ x ∈ t, f x < n := fun x hx => hl x (by simp [hx])
    have hstep : (List.range n).map
          (fun i => ((a :: t).filter (fun x => f x == i)).length) =
        (List.range n).map
          (fun i => (if f a = i then 1 else 0) + (t.filter (fun x => f x == i)).length) := by
      apply List.map_congr_left
      intro i _
      by_cases h : f a = i <;> simp [List.filter_cons, h] <;> omega
    rw [hstep, sum_map_add_nat, sum_range_indicator (f a) n ha, ih ht]
    simp [Nat.add_comm]

end HistogramLemmas

attribute [local semireducible] Rat.mul Rat.add Rat.sub Rat.inv in
/-- C6 counterexample.  The claim fails as stated: on a view holding a single
record of price `10` (so `min = max = 10`), numpy expands the degenerate range
by `±0.5`, producing the single bin `[9.5, 10.5]`, whose edges do not span
`[min, max]` of the view. -/
theorem C6_counterexample :
    (get_histogram_data [recA] none none 1).toOption.map
        (fun l => l.map (fun b => (b.binStart, b.binEnd, b.count))) =
      some [((19 : ℚ) / 2, (21 : ℚ) / 2, 1)] ∧
    listMin ((filter_data [recA] (defaultArgs none none)).map
        (fun r => r.precio_por_tableta)) = some 10 ∧
    listMax ((filter_data [recA] (defaultArgs none none)).map
        (fun r => r.precio_por_tableta)) = some 10 ∧
    ¬((19 : ℚ) / 2 = 10) := by
  decide

/-- C6 (amended): for a view with at least two distinct prices and a positive
bin count, the histogram's bin counts sum to the view's size, consecutive bins
share an edge, every bin's lower edge is strictly below its upper edge, the
edges span exactly `[min, max]` of the view's prices, and every normalized
count is the bin count divided by the view's size.  (When all prices coincide
the edges instead span the numpy-expanded range `[min − 0.5, max + 0.5]`.) -/
theorem C6_histogram (df : List Record) (ai m : Option String) (bins : Int)
    (hb : 1 ≤ bins) (mn mx : ℚ)
    (hmn : listMin ((filter_data df (defaultArgs ai m)).map
      (fun r => r.precio_por_tableta)) = some mn)
    (hmx : listMax ((filter_data df (defaultArgs ai m)).map
      (fun r => r.precio_por_tableta)) = some mx)
    (hlt : mn < mx) :
    ∃ hbins : List HistBin,
      get_histogram_data df ai m bins = Except.ok hbins ∧
      hbins.length = bins.toNat ∧
      (hbins.map (fun b => b.count)).sum = (filter_data df (defaultArgs ai m)).length ∧
      (∀ i, i < hbins.length →
        (hbins.getD i ⟨0, 0, 0, 0⟩).binStart < (hbins.getD i ⟨0, 0, 0, 0⟩).binEnd) ∧
      (∀ i, i + 1 < hbins.length →
        (hbins.getD i ⟨0, 0, 0, 0⟩).binEnd = (hbins.getD (i + 1) ⟨0, 0, 0, 0⟩).binStart) ∧
      (hbins.getD 0 ⟨0, 0, 0, 0⟩).binStart = mn ∧
      (hbins.getD (hbins.length - 1) ⟨0, 0, 0, 0⟩).binEnd = mx ∧
      (∀ b ∈ hbins, b.normalizedCount =
        (b.count : ℚ) / ((filter_data df (defaultArgs ai m)).length : ℚ)) := by
  set fd := filter_data df (defaultArgs ai m) with hfd
  set data := fd.map (fun r => r.precio_por_tableta) with hdata
  have hR : histRange data = (mn, mx) := by
    unfold histRange
    rw [hmn, hmx]
    simp [ne_of_lt hlt]
  have hne : data ≠ [] := by
    intro h
    rw [h] at hmn
    exact absurd hmn (by simp [listMin])
  have hfdpos : 0 < fd.length := by
    have : data.length ≠ 0 := fun h => hne (List.length_eq_zero.mp h)
    rw [hdata, List.length_map] at this
    omega
  set n := bins.toNat with hn
  have hn1 : 1 ≤ n := by omega
  set edgef : ℕ → ℚ := fun i => mn + (i : ℚ) * (mx - mn) / (n : ℚ) with hedgef
  set countf : ℕ → ℕ :=
    fun i => (data.filter (fun x => binIdx mn mx n x == i)).length with hcountf
  set counts := (List.range n).map countf with hcounts
  set edges := (List.range (n + 1)).map edgef with hedges
  have hnp : np_histogram data bins = Except.ok (counts, edges) := by
    unfold np_histogram
    rw [if_neg (by omega : ¬bins < 1)]
    dsimp only
    rw [hR]
  have hcl : counts.length = n := by
    rw [hcounts, List.length_map, List.length_range]
  set binf : ℕ → HistBin := fun i =>
    ⟨edges.getD i 0, edges.getD (i + 1) 0, counts.getD i 0,
     if fd.length > 0 then (counts.getD i 0 : ℚ) / (fd.length : ℚ) else 0⟩ with hbinf
  have hbl : ((List.range counts.length).map binf).length = n := by
    rw [List.length_map, List.length_range, hcl]
  refine ⟨(List.range counts.length).map binf, ?_, ?_, ?_, ?_, ?_, ?_, ?_, ?_⟩
  · unfold get_histogram_data
    dsimp only
    rw [← hfd, ← hdata, hnp]
  · rw [hbl, hn]
  · have hmapmap : ((List.range counts.length).map binf).map (fun b => b.count) =
        (List.range counts.length).map (fun i => counts.getD i 0) := by
      rw [List.map_map]
      rfl
    rw [hmapmap, map_getD_range_self, hcounts]
    have hsum := sum_filter_classes (binIdx mn mx n) n data
      (fun x _ => by
        unfold binIdx
        omega)
    rw [hsum, hdata, List.length_map]
  · intro i hi
    rw [hbl] at hi
    rw [getD_range_map binf ⟨0, 0, 0, 0⟩ (by rw [hcl]; exact hi)]
    show edges.getD i 0 < edges.getD (i + 1) 0
    rw [hedges, getD_range_map _ 0 (by omega : i < n + 1),
      getD_range_map _ 0 (by omega : i + 1 < n + 1)]
    have hw : (0 : ℚ) < mx - mn := by linarith
    have hnq : (0 : ℚ) < (n : ℚ) := by exact_mod_cast hn1
    have hstep : (i : ℚ) * (mx - mn) / (n : ℚ) < ((i : ℚ) + 1) * (mx - mn) / (n : ℚ) := by
      apply div_lt_div_of_pos_right ?_ hnq
      nlinarith
    simp only [hedgef]
    push_cast
    linarith
  · intro i hi
    rw [hbl] at hi
    rw [getD_range_map binf ⟨0, 0, 0, 0⟩ (by rw [hcl]; omega),
      getD_range_map binf ⟨0, 0, 0, 0⟩ (by rw [hcl]; exact hi)]
  · rw [getD_range_map binf ⟨0, 0, 0, 0⟩ (by rw [hcl]; omega)]
    show edges.getD 0 0 = mn
    rw [hedges, getD_range_map _ 0 (by omega : 0 < n + 1)]
    simp [hedgef]
  · rw [hbl]
    rw [getD_range_map binf ⟨0, 0, 0, 0⟩ (by rw [hcl]; omega)]
    show edges.getD (n - 1 + 1) 0 = mx
    rw [hedges, getD_range_map _ 0 (by omega : n - 1 + 1 < n + 1)]
    have hsub : n - 1 + 1 = n := by omega
    rw [hsub]
    have hnq : ((n : ℚ)) ≠ 0 := by
      have : (0 : ℚ) < (n : ℚ) := by exact_mod_cast hn1
      linarith
    simp only [hedgef]
    rw [mul_div_cancel_left₀ _ hnq]
    ring
  · intro b hbmem
    obtain ⟨i, _, hbi⟩ := List.mem_map.mp hbmem
    rw [← hbi, hbinf]
    dsimp only
    rw [if_pos hfdpos]

/-- C6 witness: on a concrete two-price view the histogram bin counts sum to
the view's size. -/
theorem C6_witness :
    (get_histogram_data [recA, recB] none none 2).toOption.map
        (fun l => (l.map (fun b => b.count)).sum) =
      some ((filter_data [recA, recB] (defaultArgs none none)).length) := by
  obtain ⟨hb, heq, _, hsum, _⟩ := C6_histogram [recA, recB] none none 2 (by decide)
    10 30 (by decide) (by decide) (by decide)
  rw [heq]
  exact congrArg some hsum

attribute [local semireducible] Rat.mul Rat.add Rat.sub Rat.inv in
/-- C7 witness: the concrete group of `dfBox` has 5 members and ordered
quartiles, obtained through the boxplot theorem. -/
theorem C7_witness :
    5 ≤ boxAcme.count ∧ boxAcme.q1 ≤ boxAcme.median ∧ boxAcme.median ≤ boxAcme.q3 := by
  have h := C7_boxplot_groups dfBox "fabricante" none 10 (by decide) [boxAcme] (by decide)
  exact ⟨h.1 boxAcme (by simp), (h.2.2.2 boxAcme (by simp)).1,
    (h.2.2.2 boxAcme (by simp)).2⟩

/-- C8: the clustering operation fails (with a scikit-learn validation error)
exactly outside the precondition `1 ≤ k ≤ view size`: it returns an error
whenever `k < 1` or `k` exceeds the view's size, and succeeds whenever
`1 ≤ k ≤ view size`. -/
theorem C8_cluster_validation (msqrt : ℚ → ℚ) (km : Nat → List ℚ → List Nat × List ℚ)
    (df : List Record) (ai : Option String) (k : Int) :
    ((k < 1 ∨ ((filter_data df (defaultArgs ai none)).length : Int) < k) →
      (get_clustering msqrt km df ai k).isOk = false) ∧
    (1 ≤ k → k ≤ ((filter_data df (defaultArgs ai none)).length : Int) →
      (get_clustering msqrt km df ai k).isOk = true) := by
  have hx : (List.map (fun r => r.precio_por_tableta)
      (filter_data df (defaultArgs ai none))).length =
      (filter_data df (defaultArgs ai none)).length := List.length_map _ _
  unfold get_clustering
  dsimp only
  constructor
  · intro hk
    by_cases h0 : (List.map (fun r => r.precio_por_tableta)
        (filter_data df (defaultArgs ai none))).length = 0
    · rw [if_pos h0]
      rfl
    · rw [if_neg h0]
      rcases hk with hk1 | hk2
      · rw [if_pos hk1]
        rfl
      · rw [if_neg (by omega : ¬k < 1),
          if_pos (by omega : ((List.map (fun r => r.precio_por_tableta)
            (filter_data df (defaultArgs ai none))).length : Int) < k)]
        rfl
  · intro hk1 hk2
    rw [if_neg (by omega : ¬(List.map (fun r => r.precio_por_tableta)
        (filter_data df (defaultArgs ai none))).length = 0),
      if_neg (by omega : ¬k < 1),
      if_neg (by omega : ¬((List.map (fun r => r.precio_por_tableta)
        (filter_data df (defaultArgs ai none))).length : Int) < k)]
    rfl

/-- C8 witness: concretely, `k = 0` is rejected and `k = 1` accepted on a
one-record view. -/
theorem C8_witness :
    (get_clustering sqrtId kmStub [recA] none 0).isOk = false ∧
    (get_clustering sqrtId kmStub [recA] none 1).isOk = true :=
  ⟨(C8_cluster_validation sqrtId kmStub [recA] none 0).1 (Or.inl (by decide)),
   (C8_cluster_validation sqrtId kmStub [recA] none 1).2 (by decide) (by decide)⟩

lemma anomalyStatsOf_thresholds (msqrt : ℚ → ℚ) (hm : ∀ q, 0 ≤ q → 0 ≤ msqrt q)
    (labeled : List (Record × Bool)) :
    ((anomalyStatsOf msqrt labeled).normal_count = 0 →
      (anomalyStatsOf msqrt labeled).price_threshold_upper = some 0 ∧
      (anomalyStatsOf msqrt labeled).price_threshold_lower = some 0) ∧
    ((anomalyStatsOf msqrt labeled).normal_count = 1 →
      (anomalyStatsOf msqrt labeled).price_threshold_upper = none ∧
      (anomalyStatsOf msqrt labeled).price_threshold_lower = none) ∧
    (2 ≤ (anomalyStatsOf msqrt labeled).normal_count →
      ∃ mid dev, 0 ≤ dev ∧
        (anomalyStatsOf msqrt labeled).price_threshold_upper = some (mid + 2 * dev) ∧
        (anomalyStatsOf msqrt labeled).price_threshold_lower = some (mid - 2 * dev) ∧
        optLe (anomalyStatsOf msqrt labeled).price_threshold_lower
          (anomalyStatsOf msqrt labeled).price_threshold_upper) := by
  unfold anomalyStatsOf
  dsimp only
  set normal := (labeled.filter (fun pr => !pr.2)).map (fun pr => pr.1.precio_por_tableta)
    with hnormal
  refine ⟨?_, ?_, ?_⟩
  · intro h0
    rw [if_neg (by omega : ¬normal.length > 0), if_neg (by omega : ¬normal.length > 0)]
    exact ⟨rfl, rfl⟩
  · intro h1
    rw [if_pos (by omega : normal.length > 0), if_pos (by omega : normal.length > 0)]
    unfold sampleStd sampleVar
    rw [if_pos (by omega : normal.length < 2)]
    exact ⟨rfl, rfl⟩
  · intro h2
    have hp : normal.length > 0 := by omega
    rw [if_pos hp, if_pos hp]
    unfold sampleStd sampleVar
    rw [if_neg (by omega : ¬normal.length < 2)]
    set v := ((normal.map (fun x => (x - normal.sum / (normal.length : ℚ)) *
      (x - normal.sum / (normal.length : ℚ)))).sum) / ((normal.length : ℚ) - 1) with hv
    have hvnn : 0 ≤ v := by
      rw [hv]
      apply div_nonneg
      · apply List.sum_nonneg
        intro y hy
        obtain ⟨x, _, hx⟩ := List.mem_map.mp hy
        rw [← hx]
        exact mul_self_nonneg _
      · have : (2 : ℚ) ≤ (normal.length : ℚ) := by exact_mod_cast h2
        linarith
    have hs := hm v hvnn
    refine ⟨normal.sum / (normal.length : ℚ), msqrt v, hs, rfl, rfl, ?_⟩
    show normal.sum / (normal.length : ℚ) - 2 * msqrt v ≤
      normal.sum / (normal.length : ℚ) + 2 * msqrt v
    linarith

attribute [local semireducible] Rat.mul Rat.add Rat.sub Rat.inv in
/-- C9 counterexample.  The claim fails as stated: with one of two records
flagged anomalous, the normal subset is a singleton, its sample standard
deviation is NaN, so both reported thresholds are NaN and `lower ≤ upper`
does not hold even though the normal subset is non-empty. -/
theorem C9_counterexample :
    (get_anomalies sqrtId forestPos [recP1, recP3] none (1 / 4)).toOption.map
        (fun p => (p.1.normal_count, p.1.price_threshold_upper,
          p.1.price_threshold_lower)) =
      some (1, none, none) ∧
    ¬optLe (none : Option ℚ) (none : Option ℚ) := by
  decide

/-- C9 (amended): the anomaly thresholds are the normal subset's mean ± 2
sample standard deviations — both `some 0` when the normal subset is empty,
both NaN (`none`) when it is a singleton — and `lower ≤ upper` holds whenever
the normal subset has at least two records. -/
theorem C9_thresholds (msqrt : ℚ → ℚ) (hm : ∀ q, 0 ≤ q → 0 ≤ msqrt q)
    (forest : ℚ → List ℚ → List Bool) (df : List Record) (ai : Option String)
    (c : ℚ) (st : AnomalyStats) (rows : List AnomalyRow)
    (hres : get_anomalies msqrt forest df ai c = Except.ok (st, rows)) :
    (st.normal_count = 0 → st.price_threshold_upper = some 0 ∧
      st.price_threshold_lower = some 0) ∧
    (st.normal_count = 1 → st.price_threshold_upper = none ∧
      st.price_threshold_lower = none) ∧
    (2 ≤ st.normal_count → ∃ mid dev, 0 ≤ dev ∧
      st.price_threshold_upper = some (mid + 2 * dev) ∧
      st.price_threshold_lower = some (mid - 2 * dev) ∧
      optLe st.price_threshold_lower st.price_threshold_upper) := by
  unfold get_anomalies at hres
  dsimp only at hres
  by_cases h0 : (List.map (fun r => r.precio_por_tableta)
      (filter_data df (defaultArgs ai none))).length = 0
  · rw [if_pos h0] at hres
    exact absurd hres (by simp)
  · rw [if_neg h0] at hres
    by_cases hc : ¬(0 < c ∧ c ≤ 1 / 2)
    · rw [if_pos hc] at hres
      exact absurd hres (by simp)
    · rw [if_neg hc] at hres
      obtain ⟨L, hL⟩ : ∃ L : List (Record × Bool),
          Except.ok (anomalyStatsOf msqrt L, anomalyRowsOf L) =
            Except.ok (st, rows) := ⟨_, hres⟩
      have hst : anomalyStatsOf msqrt L = st := congrArg Prod.fst (Except.ok.inj hL)
      subst hst
      exact anomalyStatsOf_thresholds msqrt hm L

attribute [local semireducible] Rat.mul Rat.add Rat.sub Rat.inv in
/-- C9 witness: on a concrete run whose normal subset has two records, the
thresholds are ordered. -/
theorem C9_witness : optLe (some (-2 : ℚ)) (some (6 : ℚ)) := by
  have h := (C9_thresholds sqrtId (fun q hq => hq) forestNone [recP1, recP3] none
    (1 / 4) statNone [] (by decide)).2.2 (by decide)
  obtain ⟨mid, dev, hdev, hup, hlo, hle⟩ := h
  exact hle

lemma length_filter_split {α : Type} (l : List α) (p : α → Bool) :
    (l.filter p).length + (l.filter (fun x => !p x)).length = l.length := by
  induction l with
  | nil => simp
  | cons a t ih =>
    by_cases h : p a <;> simp [List.filter_cons, h] <;> omega

/-- C10: the anomaly result partitions the view — the reported normal and
anomaly counts sum to the view's size (given that the classifier labels every
sample, as scikit-learn guarantees) — and every reported anomaly record
carries a true anomaly flag. -/
theorem C10_partition (msqrt : ℚ → ℚ) (forest : ℚ → List ℚ → List Bool)
    (hf : ∀ c xs, (forest c xs).length = xs.length)
    (df : List Record) (ai : Option String) (c : ℚ) (st : AnomalyStats)
    (rows : List AnomalyRow)
    (hres : get_anomalies msqrt forest df ai c = Except.ok (st, rows)) :
    st.normal_count + st.anomaly_count =
      (filter_data df (defaultArgs ai none)).length ∧
    (∀ r ∈ rows, r.is_anomaly = true) := by
  unfold get_anomalies at hres
  dsimp only at hres
  by_cases h0 : (List.map (fun r => r.precio_por_tableta)
      (filter_data df (defaultArgs ai none))).length = 0
  · rw [if_pos h0] at hres
    exact absurd hres (by simp)
  · rw [if_neg h0] at hres
    by_cases hc : ¬(0 < c ∧ c ≤ 1 / 2)
    · rw [if_pos hc] at hres
      exact absurd hres (by simp)
    · rw [if_neg hc] at hres
      obtain ⟨L, hL, hLlen⟩ : ∃ L : List (Record × Bool),
          Except.ok (anomalyStatsOf msqrt L, anomalyRowsOf L) =
            Except.ok (st, rows) ∧
          L.length = (filter_data df (defaultArgs ai none)).length := by
        refine ⟨_, hres, ?_⟩
        rw [List.length_zip, hf, List.length_map, List.length_map]
        exact min_self _
      have hst : anomalyStatsOf msqrt L = st := congrArg Prod.fst (Except.ok.inj hL)
      have hrows : anomalyRowsOf L = rows := congrArg Prod.snd (Except.ok.inj hL)
      subst hst
      subst hrows
      constructor
      · unfold anomalyStatsOf
        dsimp only
        rw [List.length_map, List.length_map, ← hLlen]
        have := length_filter_split L (fun pr => pr.2)
        omega
      · intro r hr
        unfold anomalyRowsOf at hr
        obtain ⟨pr, hpr, hreq⟩ := List.mem_map.mp hr
        have hpr2 : pr ∈ L.filter (fun pr => pr.2) :=
          (List.mem_insertionSort _).mp hpr
        have hflag := (List.mem_filter.mp hpr2).2
        rw [← hreq]
        simpa using hflag

attribute [local semireducible] Rat.mul Rat.add Rat.sub Rat.inv in
/-- C10 witness: a concrete run where one of two records is flagged — the
counts sum to the view size and the reported row is flagged. -/
theorem C10_witness :
    statPos.normal_count + statPos.anomaly_count =
      (filter_data [recP1, recP3] (defaultArgs none none)).length ∧
    rowP3.is_anomaly = true := by
  have h := C10_partition sqrtId forestPos (fun c xs => List.length_map xs _)
    [recP1, recP3] none (1 / 4) statPos [rowP3] (by decide)
  exact ⟨h.1, h.2 rowP3 (by simp)⟩

/-- C2 witness: the clustering method leaves a concrete service state
unchanged. -/
theorem C2_witness : (get_clusteringS sqrtId kmStub ⟨[recA]⟩ none 1).2 = ⟨[recA]⟩ :=
  (C2_no_mutation sqrtId kmStub forestNone ⟨[recA]⟩ (defaultArgs none none)
    none none 10 "fabricante" 10 1 (1 / 20)).2.2.2.2.1

end MediCalc
